import Mathlib

/-!
# Verification of the DataBowl frame-synchronization and overlay engine

Shallow embedding of `src/video/synchronizer.py` (`VideoTrackingSynchronizer`)
and `src/video/overlay.py` (`TrackingOverlayRenderer`), with theorems settling
the claims about anchor-based frame mapping, tracking resampling, field-to-video
coordinate transformation and trail rendering.

Modelling conventions:
* Python/numpy floating-point arithmetic is embedded as exact rational
  arithmetic (`ℚ`); the claims under study are about the algorithms, not about
  float rounding noise.
* Python `int(x)` (truncation toward zero) is `pyInt`.
* A raised Python exception is an `Except.error` carrying the raise site's
  message; `pandas`/`numpy`/`cv2` library calls are embedded by their
  documented semantics (`interp1d`, `linspace`) or, for `cv2.findHomography`,
  by an explicit oracle argument, since that computation is external to the
  repository.
-/

namespace DataBowl

/-- Python `int(x)` on a real value: truncation toward zero. -/
def pyInt (q : ℚ) : ℤ := if 0 ≤ q then ⌊q⌋ else -⌊-q⌋

/-- The final clamp of `get_video_frame_for_tracking`:
`max(0, min(video_frame, self.video_frame_count - 1))`. -/
def clampFrame (count v : ℤ) : ℤ := max 0 (min v (count - 1))

/-- Linear interpolation through the two points `p` and `q`, evaluated at `t`
(the formula `scipy.interpolate.interp1d(kind='linear')` uses on one segment,
extrapolating freely outside it). -/
def lerpSeg (p q : ℚ × ℚ) (t : ℚ) : ℚ :=
  p.2 + (t - p.1) * (q.2 - p.2) / (q.1 - p.1)

/-- Evaluation of `scipy.interpolate.interp1d(xs, ys, kind='linear',
fill_value='extrapolate')` on a breakpoint list sorted by first coordinate:
piecewise-linear between consecutive breakpoints, extrapolated with the first
segment below the range and with the last segment above it. -/
def interp1dEval : List (ℚ × ℚ) → ℚ → ℚ
  | [], _ => 0
  | [p], _ => p.2
  | p :: q :: rest, t =>
    if t ≤ q.1 ∨ rest = [] then lerpSeg p q t
    else interp1dEval (q :: rest) t

/-- Insert an anchor into a list sorted by first coordinate (tracking frame
id); this models the sorting `interp1d` performs on its breakpoints. -/
def insertAnchor (a : ℚ × ℚ) : List (ℚ × ℚ) → List (ℚ × ℚ)
  | [] => [a]
  | b :: l => if a.1 ≤ b.1 then a :: b :: l else b :: insertAnchor a l

/-- Sort an anchor list by tracking frame id (the keys of `sync_map` are
distinct, so ties are irrelevant). -/
def sortAnchors (l : List (ℚ × ℚ)) : List (ℚ × ℚ) := l.foldr insertAnchor []

/-- The synchronization model `set_sync_points` stores on the instance: with
two or more anchors a linear `interp1d` over the anchor points
(`self.sync_interpolator`), with exactly one anchor a constant frame offset
(`self.frame_offset = video_frame - tracking_frame`). -/
inductive SyncModel where
  | interpolator (anchors : List (ℚ × ℚ))
  | offset (off : ℤ)
deriving DecidableEq

/-- `VideoTrackingSynchronizer.set_sync_points(sync_map)`: the configuration
it leaves behind. `sync_map` is a dict, embedded as its item list with distinct
keys. An empty dict raises (`tracking_frame_ids[0]` is an `IndexError`) and
configures nothing, embedded as `none`. -/
def set_sync_points (syncMap : List (ℤ × ℤ)) : Option SyncModel :=
  match syncMap with
  | [] => none
  | [(tf, vf)] => some (SyncModel.offset (vf - tf))
  | l => some (SyncModel.interpolator
      (sortAnchors (l.map (fun p => ((p.1 : ℚ), (p.2 : ℚ))))))

/-- `VideoTrackingSynchronizer.get_video_frame_for_tracking` on a configured
instance: apply the stored model, truncate with `int(...)` in the interpolator
branch, and clamp to `[0, video_frame_count - 1]`. -/
def get_video_frame_for_tracking (m : SyncModel) (count t : ℤ) : ℤ :=
  match m with
  | SyncModel.interpolator ps => clampFrame count (pyInt (interp1dEval ps (t : ℚ)))
  | SyncModel.offset off => clampFrame count (t + off)

/-- Errors raised by the Python code (as `Except.error`).  `valueError` is a
Python `ValueError` with its message; `calibrationError` is the error class the
specification postulates for degenerate calibration input (no code path in the
repository constructs it); `cvError` is an exception raised inside the external
`cv2` library call itself. -/
inductive PyError where
  | valueError (msg : String)
  | calibrationError
  | cvError
deriving DecidableEq

/-- Decidable equality for `Except`, so that concrete runs of the embedded
fallible operations can be checked by `decide`. -/
instance instDecEqExcept {ε α : Type} [DecidableEq ε] [DecidableEq α] :
    DecidableEq (Except ε α) := fun x y =>
  match x, y with
  | Except.error a, Except.error b => decidable_of_iff (a = b) (by simp)
  | Except.ok a, Except.ok b => decidable_of_iff (a = b) (by simp)
  | Except.error _, Except.ok _ => Decidable.isFalse (by simp)
  | Except.ok _, Except.error _ => Decidable.isFalse (by simp)

/-- `get_video_frame_for_tracking` including the unconfigured case: when
neither `sync_interpolator` nor `frame_offset` exists on the instance the
method raises `ValueError("Sync points not set. ...")` before touching any
state. -/
def resolveSync (m : Option SyncModel) (count t : ℤ) : Except PyError ℤ :=
  match m with
  | none => Except.error (PyError.valueError "Sync points not set. Call set_sync_points() first.")
  | some model => Except.ok (get_video_frame_for_tracking model count t)

end DataBowl

namespace DataBowl

/-! ## Arithmetic lemmas about the synchronizer's building blocks -/

theorem pyInt_mono (a b : ℚ) (hab : a ≤ b) : pyInt a ≤ pyInt b := by
  unfold pyInt
  by_cases ha : 0 ≤ a
  · rw [if_pos ha, if_pos (le_trans ha hab)]
    exact Int.floor_le_floor hab
  · by_cases hb : 0 ≤ b
    · rw [if_neg ha, if_pos hb]
      have h1 : (0:ℤ) ≤ ⌊b⌋ := Int.le_floor.2 (by exact_mod_cast hb)
      have h2 : (0:ℤ) ≤ ⌊-a⌋ := Int.le_floor.2 (by push_neg at ha; push_cast; linarith)
      linarith
    · rw [if_neg ha, if_neg hb]
      have h3 : ⌊-b⌋ ≤ ⌊-a⌋ := Int.floor_le_floor (by linarith)
      linarith

theorem clampFrame_mono (count v1 v2 : ℤ) (h : v1 ≤ v2) :
    clampFrame count v1 ≤ clampFrame count v2 := by
  unfold clampFrame
  exact max_le_max (le_refl 0) (min_le_min h (le_refl _))

theorem clampFrame_bounds (count v : ℤ) (hc : 0 < count) :
    0 ≤ clampFrame count v ∧ clampFrame count v ≤ count - 1 := by
  unfold clampFrame
  exact ⟨le_max_left 0 _, max_le (by omega) (min_le_right _ _)⟩

theorem lerpSeg_left (p q : ℚ × ℚ) : lerpSeg p q p.1 = p.2 := by
  unfold lerpSeg
  simp

theorem lerpSeg_right (p q : ℚ × ℚ) (h : p.1 ≠ q.1) : lerpSeg p q q.1 = q.2 := by
  unfold lerpSeg
  have hne : q.1 - p.1 ≠ 0 := sub_ne_zero.2 (Ne.symm h)
  field_simp

theorem lerpSeg_mono (p q : ℚ × ℚ) (h1 : p.1 < q.1) (h2 : p.2 ≤ q.2)
    (t1 t2 : ℚ) (ht : t1 ≤ t2) : lerpSeg p q t1 ≤ lerpSeg p q t2 := by
  unfold lerpSeg
  rw [mul_div_assoc, mul_div_assoc]
  have hslope : (0:ℚ) ≤ (q.2 - p.2) / (q.1 - p.1) :=
    div_nonneg (by linarith) (by linarith)
  have := mul_le_mul_of_nonneg_right (sub_le_sub_right ht p.1) hslope
  linarith

theorem interp1dEval_cons (p q : ℚ × ℚ) (rest : List (ℚ × ℚ)) (t : ℚ) :
    interp1dEval (p :: q :: rest) t =
      if t ≤ q.1 ∨ rest = [] then lerpSeg p q t else interp1dEval (q :: rest) t := rfl

theorem interp1dEval_head (q r : ℚ × ℚ) (rest : List (ℚ × ℚ)) (h : q.1 ≤ r.1) :
    interp1dEval (q :: r :: rest) q.1 = q.2 := by
  rw [interp1dEval_cons, if_pos (Or.inl h)]
  exact lerpSeg_left q r

/-- Piecewise-linear interpolation through breakpoints that are strictly
increasing in the abscissa and non-decreasing in the ordinate is monotone
non-decreasing, including on the extrapolated ends. -/
theorem interp1dEval_mono : ∀ ps : List (ℚ × ℚ),
    ps.Chain' (fun a b => a.1 < b.1 ∧ a.2 ≤ b.2) →
    ∀ t1 t2 : ℚ, t1 ≤ t2 → interp1dEval ps t1 ≤ interp1dEval ps t2 := by
  intro ps
  induction ps with
  | nil => intro _ t1 t2 _; simp [interp1dEval]
  | cons p rest ih =>
    intro hch t1 t2 ht
    cases rest with
    | nil => simp [interp1dEval]
    | cons q rest' =>
      rw [List.chain'_cons] at hch
      obtain ⟨hpq, htail⟩ := hch
      rw [interp1dEval_cons p q rest' t1, interp1dEval_cons p q rest' t2]
      by_cases hc2 : t2 ≤ q.1 ∨ rest' = []
      · have hc1 : t1 ≤ q.1 ∨ rest' = [] := by
          rcases hc2 with h | h
          · exact Or.inl (le_trans ht h)
          · exact Or.inr h
        rw [if_pos hc1, if_pos hc2]
        exact lerpSeg_mono p q hpq.1 hpq.2 t1 t2 ht
      · push_neg at hc2
        obtain ⟨hq1, hne⟩ := hc2
        cases rest' with
        | nil => exact absurd rfl hne
        | cons r rest'' =>
          have hqr : q.1 < r.1 := (List.chain'_cons.1 htail).1.1
          by_cases hc1 : t1 ≤ q.1
          · rw [if_pos (Or.inl hc1), if_neg (by push_neg; exact ⟨hq1, hne⟩)]
            calc lerpSeg p q t1
                ≤ lerpSeg p q q.1 := lerpSeg_mono p q hpq.1 hpq.2 t1 q.1 hc1
              _ = q.2 := lerpSeg_right p q (ne_of_lt hpq.1)
              _ = interp1dEval (q :: r :: rest'') q.1 :=
                  (interp1dEval_head q r rest'' (le_of_lt hqr)).symm
              _ ≤ interp1dEval (q :: r :: rest'') t2 :=
                  ih htail q.1 t2 (le_of_lt hq1)
          · rw [if_neg (by push_neg; exact ⟨lt_of_not_le hc1, hne⟩),
                if_neg (by push_neg; exact ⟨hq1, hne⟩)]
            exact ih htail t1 t2 ht

/-- Hypothesis of the monotonicity claim: the stored anchors, in the order
sorted by tracking frame id (strictly increasing, since dict keys are
distinct), have non-decreasing video frame numbers.  The single-anchor offset
mode has no anchor-ordering condition. -/
def MonotoneAnchors : SyncModel → Prop
  | SyncModel.interpolator ps => ps.Chain' (fun a b => a.1 < b.1 ∧ a.2 ≤ b.2)
  | SyncModel.offset _ => True

instance (m : SyncModel) : Decidable (MonotoneAnchors m) := by
  cases m with
  | interpolator ps => exact inferInstanceAs (Decidable (ps.Chain' _))
  | offset off => exact inferInstanceAs (Decidable True)

end DataBowl

namespace DataBowl

/-! ## Claims about the frame-sync mapper -/

/-- C2 (counterexample): with anchors 35 ↦ 45 and 58 ↦ 78 and a large video
frame count, `get_video_frame_for_tracking(46)` returns 60 — the exact linear
interpolation 1398/23 ≈ 60.78 truncated by `int(...)` — and 60 is neither 61
nor 62, contrary to the claim's "approximately 61 or 62". -/
theorem resolve_scenario_mid_not_61_or_62 :
    resolveSync (set_sync_points [(35, 45), (58, 78)]) 100000 46 = Except.ok 60 ∧
    (60 : ℤ) ≠ 61 ∧ (60 : ℤ) ≠ 62 := by
  refine ⟨?_, by norm_num, by norm_num⟩
  norm_num [resolveSync, set_sync_points, get_video_frame_for_tracking,
    sortAnchors, insertAnchor, interp1dEval, lerpSeg, pyInt, clampFrame]

/-- C2 (amended): with anchors 35 ↦ 45 and 58 ↦ 78 set via `set_sync_points`
and video frame count 100000, `get_video_frame_for_tracking` returns exactly
45 at tracking frame 35, exactly 78 at tracking frame 58, and 60 at tracking
frame 46 (the linear interpolation 60.78… truncated toward zero by `int`). -/
theorem resolve_scenario_values :
    resolveSync (set_sync_points [(35, 45), (58, 78)]) 100000 35 = Except.ok 45 ∧
    resolveSync (set_sync_points [(35, 45), (58, 78)]) 100000 58 = Except.ok 78 ∧
    resolveSync (set_sync_points [(35, 45), (58, 78)]) 100000 46 = Except.ok 60 := by
  refine ⟨?_, ?_, ?_⟩ <;>
    norm_num [resolveSync, set_sync_points, get_video_frame_for_tracking,
      sortAnchors, insertAnchor, interp1dEval, lerpSeg, pyInt, clampFrame]

/-- C3: for every configured mapper (interpolator or offset mode) over a video
with at least one frame, and every tracking frame id however far outside the
anchor range, the resolved video frame lies within `[0, video_frame_count-1]`
(the final clamp guarantees it). -/
theorem resolve_within_video_bounds (m : SyncModel) (count t : ℤ) (hc : 0 < count) :
    0 ≤ get_video_frame_for_tracking m count t ∧
    get_video_frame_for_tracking m count t ≤ count - 1 := by
  cases m with
  | interpolator ps => exact clampFrame_bounds count _ hc
  | offset off => exact clampFrame_bounds count _ hc

/-- Witness for C3 at a concrete configured mapper: offset mode, offset 7,
video frame count 10, tracking frame 100 (far beyond the video's end). -/
theorem resolve_within_video_bounds_witness :
    0 ≤ get_video_frame_for_tracking (SyncModel.offset 7) 10 100 ∧
    get_video_frame_for_tracking (SyncModel.offset 7) 10 100 ≤ 10 - 1 :=
  resolve_within_video_bounds (SyncModel.offset 7) 10 100 (by norm_num)

/-- C7: whenever the stored anchors, ordered by tracking frame id, have
non-decreasing video frame numbers, `get_video_frame_for_tracking` is monotone
non-decreasing in the tracking frame id (in both the interpolator and the
offset mode): piecewise-linear interpolation with such anchors is monotone,
and `int(...)` truncation and the final clamp both preserve monotonicity. -/
theorem resolve_monotone (m : SyncModel) (count : ℤ) (hm : MonotoneAnchors m)
    (t1 t2 : ℤ) (ht : t1 ≤ t2) :
    get_video_frame_for_tracking m count t1 ≤ get_video_frame_for_tracking m count t2 := by
  cases m with
  | interpolator ps =>
    simp only [get_video_frame_for_tracking]
    exact clampFrame_mono count _ _
      (pyInt_mono _ _ (interp1dEval_mono ps hm _ _ (by exact_mod_cast ht)))
  | offset off =>
    simp only [get_video_frame_for_tracking]
    exact clampFrame_mono count _ _ (by omega)

/-- Witness for C7 at a concrete monotone anchor set [(0,0),(10,10)] with
video frame count 100 and tracking frames 2 ≤ 5. -/
theorem resolve_monotone_witness :
    get_video_frame_for_tracking (SyncModel.interpolator [(0, 0), (10, 10)]) 100 2 ≤
    get_video_frame_for_tracking (SyncModel.interpolator [(0, 0), (10, 10)]) 100 5 :=
  resolve_monotone (SyncModel.interpolator [(0, 0), (10, 10)]) 100
    (by norm_num [MonotoneAnchors, List.chain'_cons, List.chain'_singleton]) 2 5 (by norm_num)

end DataBowl

namespace DataBowl

/-! ## The overlay renderer (`src/video/overlay.py`) -/

/-- A 3×3 homography matrix, as stored by `set_field_calibration`
(`self.homography`). -/
structure Homography where
  h00 : ℚ
  h01 : ℚ
  h02 : ℚ
  h10 : ℚ
  h11 : ℚ
  h12 : ℚ
  h20 : ℚ
  h21 : ℚ
  h22 : ℚ
deriving DecidableEq

/-- `cv2.perspectiveTransform` of the single point `(x, y)` under `H`: lift to
homogeneous coordinates, apply the matrix, divide by the third component. -/
def projectiveImage (H : Homography) (x y : ℚ) : ℚ × ℚ :=
  ((H.h00 * x + H.h01 * y + H.h02) / (H.h20 * x + H.h21 * y + H.h22),
   (H.h10 * x + H.h11 * y + H.h12) / (H.h20 * x + H.h21 * y + H.h22))

/-- A BGR color triple. -/
abbrev Color := ℤ × ℤ × ℤ

/-- The default colors set in `TrackingOverlayRenderer.__init__`. -/
def defaultColors : List (String × Color) :=
  [("offense", (75, 107, 255)), ("defense", (196, 205, 78)), ("ball", (61, 217, 255))]

/-- `self.colors.get(team, (255, 255, 255))`: dict lookup with the white
fallback used by the drawing methods. -/
def colorsGet (cs : List (String × Color)) (team : String) : Color :=
  match cs.find? (fun p => p.1 == team) with
  | some p => p.2
  | none => (255, 255, 255)

/-- The mutable state of a `TrackingOverlayRenderer`: the stored homography
(absent until `set_field_calibration` runs) and the team-color dict. -/
structure RendererState where
  homography : Option Homography
  colors : List (String × Color)
deriving DecidableEq

/-- Outcome of the external `cv2.findHomography(field_points, video_points)`
call: either the cv2 call itself raises (it rejects inputs with fewer than 4
points), or it returns a value — a matrix, or `None` when it cannot compute a
homography for a degenerate point configuration. -/
inductive CvOutcome where
  | raises
  | returns (h : Option Homography)
deriving DecidableEq

/-- `TrackingOverlayRenderer.set_field_calibration(video_points, field_points)`:
`self.homography, _ = cv2.findHomography(field_points, video_points)`.  The
method performs no validation of its own and defines no error of its own: if
the cv2 call raises, that exception propagates; otherwise whatever the call
returned (including `None`) is stored unconditionally as the homography.  The
external cv2 computation is supplied as the oracle `findHomography`. -/
def set_field_calibration (st : RendererState)
    (videoPoints fieldPoints : List (ℚ × ℚ))
    (findHomography : List (ℚ × ℚ) → List (ℚ × ℚ) → CvOutcome) :
    Except PyError RendererState :=
  match findHomography fieldPoints videoPoints with
  | CvOutcome.raises => Except.error PyError.cvError
  | CvOutcome.returns h => Except.ok { st with homography := h }

/-- Field point to pixel point under a stored homography: perspective
transform, then `int(...)` on each component. -/
def pixOf (H : Homography) (p : ℚ × ℚ) : ℤ × ℤ :=
  (pyInt (projectiveImage H p.1 p.2).1, pyInt (projectiveImage H p.1 p.2).2)

/-- `TrackingOverlayRenderer.field_to_video_coords(x, y)`: raises
`ValueError` when calibration has not been set (the method mutates nothing in
either path), otherwise applies the homography and truncates each component
with `int(...)`. -/
def field_to_video_coords (st : RendererState) (x y : ℚ) : Except PyError (ℤ × ℤ) :=
  match st.homography with
  | none => Except.error
      (PyError.valueError "Field calibration not set. Call set_field_calibration() first.")
  | some H => Except.ok (pixOf H (x, y))

/-- One drawing operation of `draw_player_trail`: the line from `startP` to
`endP` of the given color and thickness, alpha-blended onto the frame with
opacity `alpha` (`cv2.line` on a copy followed by `cv2.addWeighted`). -/
inductive DrawOp where
  | lineBlend (startP endP : ℤ × ℤ) (color : Color) (thickness : ℤ) (alpha : ℚ)
deriving DecidableEq

/-- The blending opacity a `DrawOp` applies. -/
def DrawOp.alphaOf : DrawOp → ℚ
  | DrawOp.lineBlend _ _ _ _ a => a

/-- The segment loop of `draw_player_trail` over the pixel positions: segment
`i` joins positions `i` and `i+1` with opacity
`alpha * ((len(pixel_positions) - i) / len(pixel_positions))`. -/
def trailOps (pix : List (ℤ × ℤ)) (color : Color) (alpha : ℚ) : List DrawOp :=
  (List.range (pix.length - 1)).map fun i =>
    DrawOp.lineBlend (pix.getD i (0, 0)) (pix.getD (i + 1) (0, 0)) color 3
      (alpha * (((pix.length : ℚ) - (i : ℚ)) / (pix.length : ℚ)))

/-- `TrackingOverlayRenderer.draw_player_trail(frame, positions, team, alpha)`:
with fewer than 2 positions it returns the frame immediately, untouched and
without transforming any coordinate; otherwise it transforms every position
(which raises the calibration `ValueError` if no homography is stored — the
only failure `field_to_video_coords` has) and blends the trail segments onto
the frame.  The frame buffer is abstract (`F`); the returned ops are the
in-place mutations applied to it, in order. -/
def draw_player_trail {F : Type} (st : RendererState) (frame : F)
    (positions : List (ℚ × ℚ)) (team : String) (alpha : ℚ) :
    Except PyError (F × List DrawOp) :=
  if positions.length < 2 then Except.ok (frame, [])
  else
    match st.homography with
    | none => Except.error
        (PyError.valueError "Field calibration not set. Call set_field_calibration() first.")
    | some H =>
        Except.ok (frame, trailOps (positions.map (pixOf H)) (colorsGet st.colors team) alpha)

end DataBowl

namespace DataBowl

/-! ## Claims about the overlay renderer -/

/-- Four collinear field points: a degenerate calibration configuration. -/
def collinearFieldPoints : List (ℚ × ℚ) := [(0, 0), (1, 0), (2, 0), (3, 0)]

/-- Video points paired with `collinearFieldPoints`. -/
def collinearVideoPoints : List (ℚ × ℚ) := [(0, 0), (10, 0), (20, 0), (30, 0)]

/-- Behavior of `cv2.findHomography` on the degenerate (collinear)
configuration: it returns `None` rather than raising (documented cv2
behavior when no homography can be estimated). -/
def degenerateCvOracle : List (ℚ × ℚ) → List (ℚ × ℚ) → CvOutcome :=
  fun _ _ => CvOutcome.returns none

/-- C5 (counterexample): on a degenerate (collinear) 4-point configuration,
where `cv2.findHomography` returns `None`, `set_field_calibration` raises no
`CalibrationError` — it succeeds and silently stores `None` as the
homography. -/
theorem set_field_calibration_degenerate_silent :
    set_field_calibration { homography := none, colors := defaultColors }
      collinearVideoPoints collinearFieldPoints degenerateCvOracle =
      Except.ok { homography := none, colors := defaultColors } := rfl

/-- C5 (amended): `set_field_calibration` performs no validation of its own
and never raises a `CalibrationError`: whatever `cv2.findHomography` returns
(including `None` on a degenerate configuration) is stored unconditionally as
the homography, and if the cv2 call itself raises (as it does for fewer than 4
points) that external exception propagates unchanged. -/
theorem set_field_calibration_no_validation (st : RendererState)
    (vp fp : List (ℚ × ℚ)) (f : List (ℚ × ℚ) → List (ℚ × ℚ) → CvOutcome) :
    (∀ h : Option Homography, f fp vp = CvOutcome.returns h →
      set_field_calibration st vp fp f = Except.ok { st with homography := h }) ∧
    (f fp vp = CvOutcome.raises →
      set_field_calibration st vp fp f = Except.error PyError.cvError) ∧
    set_field_calibration st vp fp f ≠ Except.error PyError.calibrationError := by
  refine ⟨fun h hf => by simp [set_field_calibration, hf],
          fun hf => by simp [set_field_calibration, hf], ?_⟩
  cases hcv : f fp vp with
  | raises => simp [set_field_calibration, hcv]
  | returns h => simp [set_field_calibration, hcv]

/-- Witness for C5 (amended) at a concrete state and oracle: the returned
matrix is stored as given. -/
theorem set_field_calibration_no_validation_witness :
    set_field_calibration { homography := none, colors := defaultColors }
      collinearVideoPoints collinearFieldPoints degenerateCvOracle =
      Except.ok { homography := none, colors := defaultColors } :=
  (set_field_calibration_no_validation { homography := none, colors := defaultColors }
    collinearVideoPoints collinearFieldPoints degenerateCvOracle).1 none rfl

/-- A homography that translates x by 7/10 and fixes y (third row (0,0,1)). -/
def shiftH : Homography := ⟨1, 0, 7/10, 0, 1, 0, 0, 0, 1⟩

/-- C6 (counterexample): under the calibration `shiftH`, the field point
(2, 3) has exact projective image (2.7, 3); the code returns pixel x = 2
(truncation by `int(...)`), while the nearest integer is 3. -/
theorem field_to_video_truncates_not_rounds :
    field_to_video_coords { homography := some shiftH, colors := [] } 2 3 =
      Except.ok (2, 3) ∧
    round ((projectiveImage shiftH 2 3).1) = 3 ∧ (2 : ℤ) ≠ 3 := by
  refine ⟨?_, ?_, by norm_num⟩
  · norm_num [field_to_video_coords, pixOf, projectiveImage, shiftH, pyInt]
  · rw [round_eq]
    norm_num [projectiveImage, shiftH]

/-- C6 (amended): for every calibrated transformer, `field_to_video_coords`
returns integer components obtained by truncating the homogeneous-divided
homography result toward zero — the floor for a nonnegative component and the
ceiling for a negative one — not by rounding to the nearest integer. -/
theorem field_to_video_coords_trunc (st : RendererState) (H : Homography)
    (x y : ℚ) (hH : st.homography = some H) :
    ∃ a b : ℤ, field_to_video_coords st x y = Except.ok (a, b) ∧
      (0 ≤ (projectiveImage H x y).1 → a = ⌊(projectiveImage H x y).1⌋) ∧
      ((projectiveImage H x y).1 < 0 → a = ⌈(projectiveImage H x y).1⌉) ∧
      (0 ≤ (projectiveImage H x y).2 → b = ⌊(projectiveImage H x y).2⌋) ∧
      ((projectiveImage H x y).2 < 0 → b = ⌈(projectiveImage H x y).2⌉) := by
  refine ⟨pyInt (projectiveImage H x y).1, pyInt (projectiveImage H x y).2,
    by simp [field_to_video_coords, hH, pixOf], ?_, ?_, ?_, ?_⟩
  · intro h; simp [pyInt, h]
  · intro h; simp [pyInt, not_le.2 h, Int.floor_neg]
  · intro h; simp [pyInt, h]
  · intro h; simp [pyInt, not_le.2 h, Int.floor_neg]

/-- Witness for C6 (amended) at the concrete calibration `shiftH` and field
point (2, 3). -/
theorem field_to_video_coords_trunc_witness :
    ∃ a b : ℤ, field_to_video_coords { homography := some shiftH, colors := [] } 2 3 =
        Except.ok (a, b) ∧
      (0 ≤ (projectiveImage shiftH 2 3).1 → a = ⌊(projectiveImage shiftH 2 3).1⌋) ∧
      ((projectiveImage shiftH 2 3).1 < 0 → a = ⌈(projectiveImage shiftH 2 3).1⌉) ∧
      (0 ≤ (projectiveImage shiftH 2 3).2 → b = ⌊(projectiveImage shiftH 2 3).2⌋) ∧
      ((projectiveImage shiftH 2 3).2 < 0 → b = ⌈(projectiveImage shiftH 2 3).2⌉) :=
  field_to_video_coords_trunc { homography := some shiftH, colors := [] } shiftH 2 3 rfl

/-- C8: an operation invoked before its required setup fails with its
configuration `ValueError` and does not proceed: `field_to_video_coords` on an
uncalibrated renderer raises the "Field calibration not set" error (the spec's
`NotCalibratedError`), and `get_video_frame_for_tracking` before
`set_sync_points` raises the "Sync points not set" error (the spec's
`SyncNotConfiguredError`).  Both raise sites run before any attribute
assignment, so the embedded state is a read-only input of both operations:
the failing call leaves the component unchanged. -/
theorem config_errors_before_setup (st : RendererState) (hH : st.homography = none)
    (x y : ℚ) (count t : ℤ) :
    field_to_video_coords st x y = Except.error
      (PyError.valueError "Field calibration not set. Call set_field_calibration() first.") ∧
    resolveSync none count t = Except.error
      (PyError.valueError "Sync points not set. Call set_sync_points() first.") :=
  ⟨by simp [field_to_video_coords, hH], rfl⟩

/-- Witness for C8 at a freshly initialized renderer and synchronizer. -/
theorem config_errors_before_setup_witness :
    field_to_video_coords { homography := none, colors := defaultColors } 1 2 = Except.error
      (PyError.valueError "Field calibration not set. Call set_field_calibration() first.") ∧
    resolveSync none 100 5 = Except.error
      (PyError.valueError "Sync points not set. Call set_sync_points() first.") :=
  config_errors_before_setup { homography := none, colors := defaultColors } rfl 1 2 100 5

end DataBowl

namespace DataBowl

/-! ## Trail drawing claims -/

theorem trailOps_length (pix : List (ℤ × ℤ)) (color : Color) (alpha : ℚ) :
    (trailOps pix color alpha).length = pix.length - 1 := by
  simp [trailOps]

/-- The opacity of segment `k` of a trail over `pix` is
`alpha * ((pix.length - k) / pix.length)`. -/
theorem trailOps_alphaOf (pix : List (ℤ × ℤ)) (color : Color) (alpha : ℚ)
    (k : ℕ) (hk : k < (trailOps pix color alpha).length) :
    ((trailOps pix color alpha).get ⟨k, hk⟩).alphaOf =
      alpha * (((pix.length : ℚ) - (k : ℚ)) / (pix.length : ℚ)) := by
  simp [trailOps, DrawOp.alphaOf, List.get_eq_getElem]

/-- Strict decrease of successive trail opacities for a positive alpha. -/
theorem trailOps_alpha_strict_anti (pix : List (ℤ × ℤ)) (color : Color)
    (alpha : ℚ) (ha : 0 < alpha) (i j : ℕ) (hij : i < j)
    (hj : j < (trailOps pix color alpha).length) :
    ((trailOps pix color alpha).get ⟨j, hj⟩).alphaOf <
    ((trailOps pix color alpha).get ⟨i, lt_trans hij hj⟩).alphaOf := by
  rw [trailOps_alphaOf, trailOps_alphaOf]
  have hlen : j < pix.length - 1 := by
    rw [trailOps_length] at hj
    exact hj
  have hn0 : (0 : ℚ) < (pix.length : ℚ) := by
    have : 0 < pix.length := by omega
    exact_mod_cast this
  have hsub : ((pix.length : ℚ) - (j : ℚ)) < ((pix.length : ℚ) - (i : ℚ)) := by
    have : (i : ℚ) < (j : ℚ) := by exact_mod_cast hij
    linarith
  apply mul_lt_mul_of_pos_left _ ha
  rw [div_eq_mul_inv, div_eq_mul_inv]
  exact mul_lt_mul_of_pos_right hsub (inv_pos.2 hn0)

/-- C9: on every trail drawn by `draw_player_trail` with a positive alpha over
positions listed newest to oldest, the opacities of the successive drawn
segments strictly decrease from the newest segment to the oldest: segment `i`
blends at `alpha * ((n - i) / n)` where `n` is the number of positions. -/
theorem draw_player_trail_opacity (F : Type) (st : RendererState) (frame : F)
    (positions : List (ℚ × ℚ)) (team : String) (alpha : ℚ) (ha : 0 < alpha)
    (frame2 : F) (ops : List DrawOp)
    (hres : draw_player_trail st frame positions team alpha = Except.ok (frame2, ops))
    (i j : ℕ) (hij : i < j) (hj : j < ops.length) :
    (ops.get ⟨j, hj⟩).alphaOf < (ops.get ⟨i, lt_trans hij hj⟩).alphaOf := by
  unfold draw_player_trail at hres
  by_cases hlen : positions.length < 2
  · rw [if_pos hlen] at hres
    simp only [Except.ok.injEq, Prod.mk.injEq] at hres
    obtain ⟨-, hops⟩ := hres
    subst hops
    simp at hj
  · rw [if_neg hlen] at hres
    cases hHom : st.homography with
    | none => rw [hHom] at hres; simp at hres
    | some H =>
      rw [hHom] at hres
      simp only [Except.ok.injEq, Prod.mk.injEq] at hres
      obtain ⟨-, hops⟩ := hres
      subst hops
      exact trailOps_alpha_strict_anti _ _ _ ha i j hij hj

/-- The identity homography. -/
def idHomography : Homography := ⟨1, 0, 0, 0, 1, 0, 0, 0, 1⟩

/-- A concrete three-point trail for the C9 witness. -/
def exTrailPositions : List (ℚ × ℚ) := [(0, 0), (1, 0), (2, 0)]

/-- The draw operations `draw_player_trail` produces for the C9 witness. -/
def exTrailOps : List DrawOp :=
  trailOps (exTrailPositions.map (pixOf idHomography))
    (colorsGet defaultColors "offense") (1/2)

/-- Witness for C9: a calibrated renderer, three positions, alpha 1/2; the
second drawn segment is strictly more transparent than the first. -/
theorem draw_player_trail_opacity_witness :
    (exTrailOps.get ⟨1, by norm_num [exTrailOps, trailOps, exTrailPositions]⟩).alphaOf <
    (exTrailOps.get ⟨0, by norm_num [exTrailOps, trailOps, exTrailPositions]⟩).alphaOf :=
  draw_player_trail_opacity ℕ { homography := some idHomography, colors := defaultColors }
    0 exTrailPositions "offense" (1/2) (by norm_num) 0 exTrailOps rfl 0 1 (by norm_num)
    (by norm_num [exTrailOps, trailOps, exTrailPositions])

/-- C10: calling `draw_player_trail` with fewer than two positions returns the
frame unchanged with no draw operations and transforms no coordinates — in
particular it succeeds even when no homography is stored (the `len(positions)
< 2` early return runs before any use of `field_to_video_coords`). -/
theorem draw_player_trail_short_trail (F : Type) (st : RendererState) (frame : F)
    (positions : List (ℚ × ℚ)) (team : String) (alpha : ℚ)
    (h : positions.length < 2) :
    draw_player_trail st frame positions team alpha = Except.ok (frame, []) := by
  unfold draw_player_trail
  rw [if_pos h]

/-- Witness for C10: a one-point trail on an uncalibrated renderer returns the
frame untouched. -/
theorem draw_player_trail_short_trail_witness :
    draw_player_trail { homography := none, colors := defaultColors } (0 : ℕ)
      [((5 : ℚ), (5 : ℚ))] "defense" (6/10) = Except.ok (0, []) :=
  draw_player_trail_short_trail ℕ { homography := none, colors := defaultColors } 0
    [((5 : ℚ), (5 : ℚ))] "defense" (6/10) (by norm_num)

end DataBowl

namespace DataBowl

/-! ## Tracking resampling (`interpolate_tracking_data`) -/

/-- The numeric channels the resampling loop visits: the Python list
`['x', 'y', 's', 'dir', 'o']`. -/
inductive Col where
  | x
  | y
  | s
  | dir
  | o
deriving DecidableEq

/-- The fixed iteration order of the column loop. -/
def colOrder : List Col := [Col.x, Col.y, Col.s, Col.dir, Col.o]

/-- One row of the tracking DataFrame.  `nflId` is `none` for the ball (a NaN
in pandas); `val` gives the row's value in each numeric channel. -/
structure TRow where
  frameId : ℤ
  nflId : Option ℤ
  club : String
  jerseyNumber : Option ℤ
  val : Col → ℚ

/-- The tracking DataFrame: its rows plus which of the five numeric channels
exist as columns (`if column in player_data.columns`). -/
structure TrackingData where
  rows : List TRow
  cols : List Col

/-- One dict appended to `interpolated_data`: keys `frameId`,
`interpolated_frame_idx` (`idx`), `nflId`, `club`, `jerseyNumber`, plus the
numeric channels stored so far (`chan`). -/
structure IRow where
  frameId : ℚ
  idx : ℕ
  nflId : Option ℤ
  club : String
  jerseyNumber : Option ℤ
  chan : Col → Option ℚ

/-- Placeholder row (never used on the paths the theorems take: `iloc[0]` is
only read after the length-≥-2 guard). -/
def defaultTRow : TRow := ⟨0, none, "", none, fun _ => 0⟩

/-- Stable insertion by `frameId` (rows with smaller or equal frame id stay in
front), modelling `DataFrame.sort_values('frameId')`. -/
def insertRowByFrame (r : TRow) : List TRow → List TRow
  | [] => [r]
  | b :: l => if b.frameId ≤ r.frameId then b :: insertRowByFrame r l else r :: b :: l

/-- Stable sort of rows by `frameId` (`sort_values` is stable for our use:
keys are compared only on `frameId`). -/
def sortRowsByFrame (rs : List TRow) : List TRow :=
  rs.foldl (fun acc r => insertRowByFrame r acc) []

/-- Insert into a strictly sorted list of integers, dropping duplicates. -/
def insertSortedUnique (a : ℤ) : List ℤ → List ℤ
  | [] => [a]
  | b :: l =>
    if a < b then a :: b :: l
    else if a = b then b :: l
    else b :: insertSortedUnique a l

/-- `self.tracking_frames = sorted(self.tracking_data['frameId'].unique())`. -/
def trackingFrames (rows : List TRow) : List ℤ :=
  rows.foldr (fun r acc => insertSortedUnique r.frameId acc) []

/-- `num_interpolated_frames = int(len(tracking_frames) / 10 * target_fps)`:
the tracking rate is the constant 10 Hz, and `int` truncates the nonnegative
exact value, which is natural-number division by 10. -/
def numInterpolatedFrames (nframes fps : ℕ) : ℕ := nframes * fps / 10

/-- `numpy.linspace(a, b, n)` with endpoint: `a + i * (b - a) / (n - 1)`. -/
def linspace (a b : ℚ) : ℕ → List ℚ
  | 0 => []
  | 1 => [a]
  | n + 2 => (List.range (n + 2)).map fun i : ℕ => a + (i : ℚ) * ((b - a) / ((n : ℚ) + 1))

/-- The new uniform timeline `new_frames = linspace(original_frames[0],
original_frames[-1], num_interpolated_frames)`. -/
def newFrames (rows : List TRow) (fps : ℕ) : List ℚ :=
  linspace ((trackingFrames rows).headD 0 : ℤ) ((trackingFrames rows).getLastD 0 : ℤ)
    (numInterpolatedFrames (trackingFrames rows).length fps)

/-- Python `==` between the stored `nflId` float and the current entity id:
two numbers compare by value, but `NaN == NaN` is `False`, so the ball id
(`none`) never equals anything, itself included. -/
def pyEqOptId (a b : Option ℤ) : Bool :=
  match a, b with
  | some m, some n => m == n
  | _, _ => false

/-- Row selection for the current entity: `isna()` for the ball, `== nfl_id`
for a player. -/
def selectEntity (id : Option ℤ) (r : TRow) : Bool :=
  match id with
  | none => r.nflId.isNone
  | some n => r.nflId == some n

/-- `Series.unique()` on the `nflId` column: first-appearance order, all NaN
occurrences collapsed to a single entry. -/
def dedupIds (l : List (Option ℤ)) : List (Option ℤ) :=
  l.foldl (fun acc v => if v ∈ acc then acc else acc ++ [v]) []

/-- Replace the element at an index (no-op when out of range), modelling the
in-place update `interpolated_data[i][column] = value`. -/
def listModify {α : Type} (f : α → α) : ℕ → List α → List α
  | _, [] => []
  | 0, a :: l => f a :: l
  | n + 1, a :: l => a :: listModify f n l

/-- Store channel `c := v` into a row's channel map (dict key update). -/
def setChan (c : Col) (v : ℚ) (old : Col → Option ℚ) : Col → Option ℚ :=
  fun c2 => if c2 = c then some v else old c2

/-- The inner storage loop of `interpolate_tracking_data` for one entity and
one column: `for i, (frame, value) in enumerate(zip(new_frames,
interpolated_values))` — append a fresh dict when `i >= len(interpolated_data)`,
otherwise update slot `i` only when its stored `nflId` compares `==` equal to
the current entity id. -/
def storeValues (id : Option ℤ) (club : String) (jersey : Option ℤ) (c : Col)
    (interp : ℚ → ℚ) : List ℚ → ℕ → List IRow → List IRow
  | [], _, acc => acc
  | fr :: rest, i, acc =>
    storeValues id club jersey c interp rest (i + 1)
      (if acc.length ≤ i then
        acc ++ [⟨fr, i, id, club, jersey, setChan c (interp fr) (fun _ => none)⟩]
      else
        listModify (fun row =>
          if pyEqOptId row.nflId id then { row with chan := setChan c (interp fr) row.chan }
          else row) i acc)

/-- The body of the `for nfl_id in ...unique()` loop: select the entity's
rows, skip entities with fewer than 2 rows, re-sort by frame id, and for each
numeric channel present in the DataFrame run the interpolator over the new
timeline and store the results. -/
def processEntity (cols : List Col) (frames : List ℚ) (rows : List TRow)
    (id : Option ℤ) (acc : List IRow) : List IRow :=
  let pd := rows.filter (selectEntity id)
  if pd.length < 2 then acc
  else
    let pdS := sortRowsByFrame pd
    let head := pdS.headD defaultTRow
    (colOrder.filter (fun c => cols.contains c)).foldl
      (fun acc2 c =>
        storeValues id head.club head.jerseyNumber c
          (interp1dEval (pdS.map (fun r => ((r.frameId : ℚ), r.val c)))) frames 0 acc2)
      acc

/-- `VideoTrackingSynchronizer.interpolate_tracking_data(target_fps)`: rows
are the tracking data sorted by `frameId` (done in `__init__`), the new
timeline is computed from the sorted unique frame ids, and the entity loop
runs over the unique `nflId` values in first-appearance order (the ball's NaN
id collapsed to one `none` entry). -/
def interpolate_tracking_data (td : TrackingData) (fps : ℕ) : List IRow :=
  let rows := sortRowsByFrame td.rows
  let frames := newFrames rows fps
  (dedupIds (rows.map (fun r => r.nflId))).foldl
    (fun acc id => processEntity td.cols frames rows id acc) []

end DataBowl

namespace DataBowl

/-! ## Claims about the resampling -/

theorem linspace_length (a b : ℚ) : ∀ n : ℕ, (linspace a b n).length = n
  | 0 => rfl
  | 1 => rfl
  | _ + 2 => by simp only [linspace, List.length_map, List.length_range]

/-- A tracking row of player `id` at frame `f` whose channels all hold `xv`. -/
def mkTRow (f : ℤ) (id : ℤ) (xv : ℚ) : TRow := ⟨f, some id, "A", some 10, fun _ => xv⟩

/-- Failing input for C1: two players (ids 1 and 2), each with two native
samples (frames 1 and 2), x channel only. -/
def twoPlayerTD : TrackingData :=
  { rows := [mkTRow 1 1 0, mkTRow 1 2 5, mkTRow 2 1 10, mkTRow 2 2 7],
    cols := [Col.x] }

/-- C1 (code_bug evaluation): on `twoPlayerTD`, player 2 has 2 native samples
— enough to interpolate — yet the resampled output consists of 6 rows all
belonging to player 1 and no row of player 2: rows are only ever appended to
`interpolated_data` while processing the first entity's first channel, and the
update guard `interpolated_data[i]['nflId'] == nfl_id` is false for every
later entity, so their interpolated values are computed and then discarded. -/
theorem interpolate_drops_later_entities :
    (twoPlayerTD.rows.filter (selectEntity (some 2))).length = 2 ∧
    ((interpolate_tracking_data twoPlayerTD 30).map (fun r => r.nflId)) =
      List.replicate 6 (some 1) :=
  ⟨by decide, by decide⟩

/-- Nine single-player rows at frames 1..9: the C4 counterexample stream. -/
def exRows4 : List TRow :=
  [mkTRow 1 1 0, mkTRow 2 1 1, mkTRow 3 1 2, mkTRow 4 1 3, mkTRow 5 1 4,
   mkTRow 6 1 5, mkTRow 7 1 6, mkTRow 8 1 7, mkTRow 9 1 8]

/-- C4 (counterexample): with 9 native frames and target fps 31 the duration
is 0.9 s, so `duration * targetFps = 27.9`; the code produces
`int(27.9) = 27` timeline points while `round(27.9) = 28`. -/
theorem timeline_count_truncates_not_rounds :
    (newFrames exRows4 31).length = 27 ∧
    ¬ ((27 : ℤ) = round (((9 : ℚ) * 31) / 10)) := by
  refine ⟨by decide, ?_⟩
  rw [round_eq]
  norm_num

/-- C4 (amended): for every nonempty input tracking stream and target fps,
the resampled timeline contains exactly `int(duration * targetFps)` points —
the truncation (floor, the value being nonnegative) of `duration * targetFps`,
not its rounding — where duration is the native frame count divided by the
native 10 Hz tracking rate. -/
theorem timeline_count (rows : List TRow) (fps : ℕ) (hne : rows ≠ []) :
    (newFrames rows fps).length =
      ⌊(((trackingFrames rows).length : ℚ) / 10) * (fps : ℚ)⌋₊ := by
  have h1 : (newFrames rows fps).length = (trackingFrames rows).length * fps / 10 := by
    unfold newFrames numInterpolatedFrames
    exact linspace_length _ _ _
  have hcast : (((trackingFrames rows).length : ℚ) / 10) * (fps : ℚ) =
      (((trackingFrames rows).length * fps : ℕ) : ℚ) / ((10 : ℕ) : ℚ) := by
    push_cast
    ring
  rw [h1, hcast, Nat.floor_div_nat, Nat.floor_natCast]

/-- Witness for C4 (amended) on the concrete 9-frame stream at fps 31. -/
theorem timeline_count_witness :
    (newFrames exRows4 31).length =
      ⌊(((trackingFrames exRows4).length : ℚ) / 10) * ((31 : ℕ) : ℚ)⌋₊ :=
  timeline_count exRows4 31 (by simp [exRows4])

end DataBowl
